import Mathlib

set_option linter.unusedSectionVars false

/-!
Shallow embedding of `src/include/primer/p0_starter.h` (bustub p0 starter):
the `RowMatrix` dense-matrix class and the static operations of
`RowMatrixOperations` (`Add`, `Multiply`, `GEMM`).

Modelling choices, each mirroring the C++ source:
* `Matrix<T>::_linear` is a flat row-major buffer; the derived row-pointer
  index `_data` satisfies `_data[i][j] = _linear[i*cols + j]`, so the state is
  a structure with `rows`, `cols` and a flat `data : List α` whose length is
  `rows * cols` (the buffer allocated at construction and never resized).
* Element indices are C++ `int`s, so `GetElement`/`SetElement` take `Int`
  arguments and check `i < 0 || i >= rows || j < 0 || j >= cols`.
* A thrown `Exception(ExceptionType::OUT_OF_RANGE, msg)` is the `.error`
  branch of an `Except BustubException` result.
* Nullable `RowMatrix<T>*` / `unique_ptr<RowMatrix<T>>` operands and results
  are `Option (RowMatrix α)`; since the element accessors used inside
  `Add`/`Multiply` can throw, those operations return
  `Except BustubException (Option (RowMatrix α))`.
* Each C++ `for` loop running `idx = 0 .. bound-1` is a structural recursion
  `loop (n+1) s = (loop n s) followed by the body at index n`, so `loop bound`
  performs exactly the iterations `0 .. bound-1` in order.
-/

namespace Bustub

inductive ExceptionType where
  | OUT_OF_RANGE
deriving DecidableEq, Repr

structure BustubException where
  etype : ExceptionType
  message : String
deriving DecidableEq, Repr

/-- `RowMatrix<T>`: shape plus the flat row-major buffer `_linear`, with the
invariant that the buffer holds exactly `rows * cols` elements (allocated at
construction, never resized). `_data[i][j]` is `data[i*cols + j]`. -/
structure RowMatrix (α : Type) where
  rows : Nat
  cols : Nat
  data : List α
  hlen : data.length = rows * cols

/-- Alias for the `+` typeclass, still usable once `Add` names the matrix
operation below. -/
abbrev AddOp (β : Type) : Type := Add β

variable {α : Type} [Inhabited α] [AddOp α] [Mul α] [Zero α]

/-- `new RowMatrix<T>(rows, cols)`: buffer of `rows*cols` default elements. -/
def mkRowMatrix (rows cols : Nat) : RowMatrix α :=
  ⟨rows, cols, List.replicate (rows * cols) default, by simp⟩

def RowMatrix.GetRowCount (m : RowMatrix α) : Nat := m.rows

def RowMatrix.GetColumnCount (m : RowMatrix α) : Nat := m.cols

/-- The stored value `_data[i][j] = _linear[i*cols + j]` (reading positions
used only after a bounds check, hence the irrelevant `default`). -/
def RowMatrix.entry (m : RowMatrix α) (i j : Nat) : α :=
  m.data.getD (i * m.cols + j) default

/-- `RowMatrix<T>::GetElement(int i, int j)`. -/
def RowMatrix.GetElement (m : RowMatrix α) (i j : Int) :
    Except BustubException α :=
  if i < 0 ∨ (m.rows : Int) ≤ i ∨ j < 0 ∨ (m.cols : Int) ≤ j then
    .error ⟨.OUT_OF_RANGE, "GetElement out of range"⟩
  else
    .ok (m.data.getD (i.toNat * m.cols + j.toNat) default)

/-- `RowMatrix<T>::SetElement(int i, int j, T val)`; the successor state is
the returned matrix. -/
def RowMatrix.SetElement (m : RowMatrix α) (i j : Int) (val : α) :
    Except BustubException (RowMatrix α) :=
  if i < 0 ∨ (m.rows : Int) ≤ i ∨ j < 0 ∨ (m.cols : Int) ≤ j then
    .error ⟨.OUT_OF_RANGE, "SetElement out of range"⟩
  else
    .ok ⟨m.rows, m.cols, m.data.set (i.toNat * m.cols + j.toNat) val,
         by rw [List.length_set]; exact m.hlen⟩

/-- Inner loop of `FillFrom`: `for (j = 0; j < n; j++) _data[i][j] = source[i*cols+j]`. -/
def fillInner (source : List α) (cols i : Nat) :
    Nat → List α → List α
  | 0, buf => buf
  | j + 1, buf =>
      (fillInner source cols i j buf).set (i * cols + j)
        (source.getD (i * cols + j) default)

/-- Outer loop of `FillFrom`: rows `0 .. n-1`, each filled by `fillInner`. -/
def fillOuter (source : List α) (cols : Nat) :
    Nat → List α → List α
  | 0, buf => buf
  | i + 1, buf => fillInner source cols i cols (fillOuter source cols i buf)

theorem fillInner_length (source : List α) (cols i : Nat) :
    ∀ n buf, (fillInner source cols i n buf).length = buf.length := by
  intro n
  induction n with
  | zero => intro buf; rfl
  | succ j ih => intro buf; simp [fillInner, List.length_set, ih]

theorem fillOuter_length (source : List α) (cols : Nat) :
    ∀ n buf, (fillOuter source cols n buf).length = buf.length := by
  intro n
  induction n with
  | zero => intro buf; rfl
  | succ i ih => intro buf; simp [fillOuter, fillInner_length, ih]

/-- The state after the copy loops of `FillFrom`. -/
def RowMatrix.fillResult (m : RowMatrix α) (source : List α) : RowMatrix α :=
  ⟨m.rows, m.cols, fillOuter source m.cols m.rows m.data,
   by rw [fillOuter_length]; exact m.hlen⟩

/-- `RowMatrix<T>::FillFrom(const std::vector<T>& source)`. -/
def RowMatrix.FillFrom (m : RowMatrix α) (source : List α) :
    Except BustubException (RowMatrix α) :=
  if source.length ≠ m.rows * m.cols then
    .error ⟨.OUT_OF_RANGE, "FillFrom out of range"⟩
  else
    .ok (m.fillResult source)

/-- Inner loop of `Add`, row `i`:
`valueA = A->GetElement(i,j); valueB = B->GetElement(i,j);
result->SetElement(i, j, valueA + valueB)` for `j = 0 .. n-1`. -/
def addInner (A B : RowMatrix α) (i : Nat) :
    Nat → RowMatrix α → Except BustubException (RowMatrix α)
  | 0, res => .ok res
  | j + 1, res => do
      let res ← addInner A B i j res
      let valueA ← A.GetElement i j
      let valueB ← B.GetElement i j
      res.SetElement i j (valueA + valueB)

/-- Outer loop of `Add`: rows `i = 0 .. n-1`, inner bound `colsA`. -/
def addOuter (A B : RowMatrix α) :
    Nat → RowMatrix α → Except BustubException (RowMatrix α)
  | 0, res => .ok res
  | i + 1, res => do
      let res ← addOuter A B i res
      addInner A B i A.GetColumnCount res

/-- `RowMatrixOperations<T>::Add(matrixA, matrixB)`. -/
def Add (matrixA matrixB : Option (RowMatrix α)) :
    Except BustubException (Option (RowMatrix α)) :=
  match matrixA, matrixB with
  | none, _ => .ok none
  | _, none => .ok none
  | some A, some B =>
      if A.GetRowCount ≠ B.GetRowCount ∨ A.GetColumnCount ≠ B.GetColumnCount then
        .ok none
      else do
        let result ← addOuter A B A.GetRowCount
          (mkRowMatrix A.GetRowCount B.GetColumnCount)
        .ok (some result)

/-- Accumulation loop of `Multiply` at `(i, j)`:
`tmp = 0; for (k = 0; k < n; k++) tmp += A->GetElement(i,k) * B->GetElement(k,j)`. -/
def mulAcc (A B : RowMatrix α) (i j : Nat) :
    Nat → α → Except BustubException α
  | 0, tmp => .ok tmp
  | k + 1, tmp => do
      let tmp ← mulAcc A B i j k tmp
      let a ← A.GetElement i k
      let b ← B.GetElement k j
      .ok (tmp + a * b)

/-- Inner loop of `Multiply`, row `i`: columns `j = 0 .. n-1`, each computing
`tmp` over `k = 0 .. colsA-1` from `0` and storing it via `SetElement`. -/
def mulInner (A B : RowMatrix α)
    (i : Nat) : Nat → RowMatrix α → Except BustubException (RowMatrix α)
  | 0, res => .ok res
  | j + 1, res => do
      let res ← mulInner A B i j res
      let tmp ← mulAcc A B i j A.GetColumnCount 0
      res.SetElement i j tmp

/-- Outer loop of `Multiply`: rows `i = 0 .. n-1`, inner bound `colsB`. -/
def mulOuter (A B : RowMatrix α) :
    Nat → RowMatrix α → Except BustubException (RowMatrix α)
  | 0, res => .ok res
  | i + 1, res => do
      let res ← mulOuter A B i res
      mulInner A B i B.GetColumnCount res

/-- `RowMatrixOperations<T>::Multiply(matrixA, matrixB)`. After the null and
shape checks it allocates `result`, runs the triple loop, and then returns
`std::unique_ptr<RowMatrix<T>>(nullptr)`, discarding `result`. -/
def Multiply
    (matrixA matrixB : Option (RowMatrix α)) :
    Except BustubException (Option (RowMatrix α)) :=
  match matrixA, matrixB with
  | none, _ => .ok none
  | _, none => .ok none
  | some A, some B =>
      if A.GetColumnCount ≠ B.GetRowCount then
        .ok none
      else do
        let _ ← mulOuter A B A.GetRowCount
          (mkRowMatrix A.GetRowCount B.GetColumnCount)
        .ok none

/-- `RowMatrixOperations<T>::GEMM(matrixA, matrixB, matrixC)`:
`Add(Multiply(matrixA, matrixB), matrixC)`. -/
def GEMM
    (matrixA matrixB matrixC : Option (RowMatrix α)) :
    Except BustubException (Option (RowMatrix α)) := do
  let m ← Multiply matrixA matrixB
  Add m matrixC

/-! ### Basic list and index lemmas -/

theorem getD_set_self (l : List α) (n : Nat) (a d : α) (h : n < l.length) :
    (l.set n a).getD n d = a := by
  induction l generalizing n with
  | nil => simp at h
  | cons x xs ih =>
      cases n with
      | zero => rfl
      | succ n => exact ih n (by simpa using h)

theorem getD_set_ne (l : List α) (m n : Nat) (a d : α) (h : m ≠ n) :
    (l.set m a).getD n d = l.getD n d := by
  induction l generalizing m n with
  | nil => rfl
  | cons x xs ih =>
      cases m with
      | zero =>
          cases n with
          | zero => exact absurd rfl h
          | succ n => rfl
      | succ m =>
          cases n with
          | zero => rfl
          | succ n => exact ih m n (by omega)

theorem index_lt {R C i j : Nat} (hi : i < R) (hj : j < C) :
    i * C + j < R * C := by
  have h1 : (i + 1) * C ≤ R * C := Nat.mul_le_mul_right C hi
  rw [Nat.succ_mul] at h1
  omega

theorem index_inj {C i j iq jq : Nat} (hj : j < C) (hjq : jq < C)
    (h : i * C + j = iq * C + jq) : i = iq ∧ j = jq := by
  rcases Nat.lt_trichotomy i iq with hlt | heq | hgt
  · have h1 : (i + 1) * C ≤ iq * C := Nat.mul_le_mul_right C hlt
    rw [Nat.succ_mul] at h1
    omega
  · subst heq; omega
  · have h1 : (iq + 1) * C ≤ i * C := Nat.mul_le_mul_right C hgt
    rw [Nat.succ_mul] at h1
    omega

/-! ### Reductions of the bounds-checked accessors at in-range indices -/

theorem GetElement_ok (m : RowMatrix α) {i j : Nat}
    (hi : i < m.rows) (hj : j < m.cols) :
    m.GetElement i j = .ok (m.entry i j) := by
  rw [RowMatrix.GetElement, if_neg]
  · simp [RowMatrix.entry]
  · omega

/-- The matrix produced by an in-range `SetElement`. -/
def RowMatrix.setEntry (m : RowMatrix α) (i j : Nat) (val : α) : RowMatrix α :=
  ⟨m.rows, m.cols, m.data.set (i * m.cols + j) val,
   by rw [List.length_set]; exact m.hlen⟩

theorem SetElement_ok (m : RowMatrix α) {i j : Nat} (val : α)
    (hi : i < m.rows) (hj : j < m.cols) :
    m.SetElement i j val = .ok (m.setEntry i j val) := by
  rw [RowMatrix.SetElement, if_neg]
  · simp [RowMatrix.setEntry]
  · omega

theorem setEntry_rows (m : RowMatrix α) (i j : Nat) (val : α) :
    (m.setEntry i j val).rows = m.rows := rfl

theorem setEntry_cols (m : RowMatrix α) (i j : Nat) (val : α) :
    (m.setEntry i j val).cols = m.cols := rfl

theorem entry_setEntry_self (m : RowMatrix α) {i j : Nat} (val : α)
    (hi : i < m.rows) (hj : j < m.cols) :
    (m.setEntry i j val).entry i j = val := by
  have hlt : i * m.cols + j < m.data.length := by
    rw [m.hlen]; exact index_lt hi hj
  simp only [RowMatrix.entry, RowMatrix.setEntry]
  exact getD_set_self _ _ _ _ hlt

theorem entry_setEntry_ne (m : RowMatrix α) {i j p q : Nat} (val : α)
    (hj : j < m.cols) (hq : q < m.cols) (hne : ¬(p = i ∧ q = j)) :
    (m.setEntry i j val).entry p q = m.entry p q := by
  simp only [RowMatrix.entry, RowMatrix.setEntry]
  refine getD_set_ne _ _ _ _ _ ?_
  intro he
  rcases index_inj hj hq he with ⟨hi', hj'⟩
  exact hne ⟨hi'.symm, hj'.symm⟩

theorem ok_bind {ε β γ : Type} (a : β) (f : β → Except ε γ) :
    (Except.ok a : Except ε β) >>= f = f a := rfl

/-! ### Characterization of the `Add` loops -/

theorem addInner_ok (A B : RowMatrix α) {i n : Nat} {res : RowMatrix α}
    (hi : i < A.rows) (hn : n ≤ A.cols)
    (hBr : B.rows = A.rows) (hBc : B.cols = A.cols)
    (hr : res.rows = A.rows) (hc : res.cols = A.cols) :
    ∃ resq : RowMatrix α, addInner A B i n res = .ok resq ∧
      resq.rows = res.rows ∧ resq.cols = res.cols ∧
      ∀ p q : Nat, p < res.rows → q < res.cols →
        resq.entry p q =
          if p = i ∧ q < n then A.entry i q + B.entry i q else res.entry p q := by
  induction n with
  | zero =>
      refine ⟨res, rfl, rfl, rfl, ?_⟩
      intro p q _ _
      simp
  | succ j ih =>
      obtain ⟨res1, h1, hr1, hc1, hent1⟩ := ih (Nat.le_of_succ_le hn)
      have hj : j < A.cols := hn
      have hjB : j < B.cols := by rw [hBc]; exact hj
      have hiB : i < B.rows := by rw [hBr]; exact hi
      have hir : i < res1.rows := by rw [hr1, hr]; exact hi
      have hjr : j < res1.cols := by rw [hc1, hc]; exact hj
      refine ⟨res1.setEntry i j (A.entry i j + B.entry i j), ?_, ?_, ?_, ?_⟩
      · rw [addInner, h1, ok_bind, GetElement_ok A hi hj, ok_bind,
          GetElement_ok B hiB hjB, ok_bind, SetElement_ok res1 _ hir hjr]
      · rw [setEntry_rows, hr1]
      · rw [setEntry_cols, hc1]
      · intro p q hp hq
        have hqr : q < res1.cols := by rw [hc1]; exact hq
        by_cases hpq : p = i ∧ q = j
        · obtain ⟨hpi, hqj⟩ := hpq
          rw [hpi, hqj, entry_setEntry_self res1 _ hir hjr,
            if_pos ⟨rfl, Nat.lt_succ_self j⟩]
        · rw [entry_setEntry_ne res1 _ hjr hqr hpq, hent1 p q hp hq]
          by_cases hpij : p = i ∧ q < j + 1
          · have hqj : q < j := by
              rcases hpij with ⟨hpi, hqs⟩
              rcases Nat.lt_succ_iff_lt_or_eq.mp hqs with h' | h'
              · exact h'
              · exact absurd ⟨hpi, h'⟩ hpq
            rw [if_pos ⟨hpij.1, hqj⟩, if_pos hpij]
          · have hnot : ¬(p = i ∧ q < j) := by
              intro ⟨h1', h2'⟩; exact hpij ⟨h1', Nat.lt_succ_of_lt h2'⟩
            rw [if_neg hnot, if_neg hpij]

theorem addOuter_ok (A B : RowMatrix α) {n : Nat} {res : RowMatrix α}
    (hn : n ≤ A.rows)
    (hBr : B.rows = A.rows) (hBc : B.cols = A.cols)
    (hr : res.rows = A.rows) (hc : res.cols = A.cols) :
    ∃ resq : RowMatrix α, addOuter A B n res = .ok resq ∧
      resq.rows = res.rows ∧ resq.cols = res.cols ∧
      ∀ p q : Nat, p < res.rows → q < res.cols →
        resq.entry p q =
          if p < n then A.entry p q + B.entry p q else res.entry p q := by
  induction n with
  | zero =>
      refine ⟨res, rfl, rfl, rfl, ?_⟩
      intro p q _ _
      simp
  | succ i ih =>
      obtain ⟨res1, h1, hr1, hc1, hent1⟩ := ih (Nat.le_of_succ_le hn)
      have hi : i < A.rows := hn
      have hr1' : res1.rows = A.rows := by rw [hr1, hr]
      have hc1' : res1.cols = A.cols := by rw [hc1, hc]
      obtain ⟨res2, h2, hr2, hc2, hent2⟩ :=
        addInner_ok A B hi (Nat.le_refl A.cols) hBr hBc hr1' hc1'
      refine ⟨res2, ?_, ?_, ?_, ?_⟩
      · rw [addOuter, h1, ok_bind, RowMatrix.GetColumnCount, h2]
      · rw [hr2, hr1]
      · rw [hc2, hc1]
      · intro p q hp hq
        have hp1 : p < res1.rows := by rw [hr1]; exact hp
        have hq1 : q < res1.cols := by rw [hc1]; exact hq
        have hqA : q < A.cols := by rw [← hc]; exact hq
        rw [hent2 p q hp1 hq1, hent1 p q hp hq]
        by_cases hpi : p = i
        · subst hpi
          rw [if_pos ⟨rfl, hqA⟩, if_pos (Nat.lt_succ_self p)]
        · rw [if_neg (fun h => hpi h.1)]
          by_cases hplt : p < i
          · rw [if_pos hplt, if_pos (Nat.lt_succ_of_lt hplt)]
          · rw [if_neg hplt, if_neg (fun h => hpi (Nat.lt_succ_iff_lt_or_eq.mp h |>.resolve_left hplt))]

/-- `Add` on non-null equal-shaped operands: present result, correct shape,
elementwise sums. -/
theorem Add_some_eq (A B : RowMatrix α)
    (hr : A.rows = B.rows) (hc : A.cols = B.cols) :
    ∃ R : RowMatrix α, Add (some A) (some B) = .ok (some R) ∧
      R.rows = A.rows ∧ R.cols = A.cols ∧
      ∀ p q : Nat, p < A.rows → q < A.cols →
        R.entry p q = A.entry p q + B.entry p q := by
  have hmk : (mkRowMatrix A.rows B.cols : RowMatrix α).rows = A.rows := rfl
  have hmkc : (mkRowMatrix A.rows B.cols : RowMatrix α).cols = A.cols := hc.symm
  obtain ⟨R, hR, hRr, hRc, hent⟩ :=
    addOuter_ok A B (Nat.le_refl A.rows) hr.symm hc.symm hmk hmkc
  refine ⟨R, ?_, by rw [hRr, hmk], by rw [hRc, hmkc], ?_⟩
  · rw [Add, RowMatrix.GetRowCount, RowMatrix.GetRowCount,
      RowMatrix.GetColumnCount, RowMatrix.GetColumnCount,
      if_neg (by push_neg; exact ⟨hr, hc⟩), hR, ok_bind]
  · intro p q hp hq
    have hp' : p < (mkRowMatrix A.rows B.cols : RowMatrix α).rows := hp
    have hq' : q < (mkRowMatrix A.rows B.cols : RowMatrix α).cols := by
      rw [hmkc]; exact hq
    rw [hent p q hp' hq', if_pos hp]

/-! ### The `Multiply` loops never raise -/

theorem mulAcc_ok (A B : RowMatrix α) {i j n : Nat} (tmp : α)
    (hi : i < A.rows) (hn : n ≤ A.cols) (hj : j < B.cols)
    (hAB : A.cols = B.rows) :
    ∃ t : α, mulAcc A B i j n tmp = .ok t := by
  induction n with
  | zero => exact ⟨tmp, rfl⟩
  | succ k ih =>
      obtain ⟨t, ht⟩ := ih (Nat.le_of_succ_le hn)
      have hk : k < A.cols := hn
      have hkB : k < B.rows := by rw [← hAB]; exact hk
      refine ⟨t + A.entry i k * B.entry k j, ?_⟩
      rw [mulAcc, ht, ok_bind, GetElement_ok A hi hk, ok_bind,
        GetElement_ok B hkB hj, ok_bind]

theorem mulInner_ok (A B : RowMatrix α) {i n : Nat} {res : RowMatrix α}
    (hi : i < A.rows) (hAB : A.cols = B.rows) (hn : n ≤ B.cols)
    (hr : res.rows = A.rows) (hc : res.cols = B.cols) :
    ∃ resq : RowMatrix α, mulInner A B i n res = .ok resq ∧
      resq.rows = res.rows ∧ resq.cols = res.cols := by
  induction n with
  | zero => exact ⟨res, rfl, rfl, rfl⟩
  | succ j ih =>
      obtain ⟨res1, h1, hr1, hc1⟩ := ih (Nat.le_of_succ_le hn)
      have hj : j < B.cols := hn
      obtain ⟨t, ht⟩ := mulAcc_ok A B 0 hi (Nat.le_refl A.cols) hj hAB
      have hir : i < res1.rows := by rw [hr1, hr]; exact hi
      have hjr : j < res1.cols := by rw [hc1, hc]; exact hj
      refine ⟨res1.setEntry i j t, ?_, ?_, ?_⟩
      · rw [mulInner, h1, ok_bind, RowMatrix.GetColumnCount, ht, ok_bind,
          SetElement_ok res1 _ hir hjr]
      · rw [setEntry_rows, hr1]
      · rw [setEntry_cols, hc1]

theorem mulOuter_ok (A B : RowMatrix α) {n : Nat} {res : RowMatrix α}
    (hAB : A.cols = B.rows) (hn : n ≤ A.rows)
    (hr : res.rows = A.rows) (hc : res.cols = B.cols) :
    ∃ resq : RowMatrix α, mulOuter A B n res = .ok resq ∧
      resq.rows = res.rows ∧ resq.cols = res.cols := by
  induction n with
  | zero => exact ⟨res, rfl, rfl, rfl⟩
  | succ i ih =>
      obtain ⟨res1, h1, hr1, hc1⟩ := ih (Nat.le_of_succ_le hn)
      have hi : i < A.rows := hn
      have hr1' : res1.rows = A.rows := by rw [hr1, hr]
      have hc1' : res1.cols = B.cols := by rw [hc1, hc]
      obtain ⟨res2, h2, hr2, hc2⟩ :=
        mulInner_ok A B hi hAB (Nat.le_refl B.cols) hr1' hc1'
      refine ⟨res2, ?_, ?_, ?_⟩
      · rw [mulOuter, h1, ok_bind, RowMatrix.GetColumnCount, h2]
      · rw [hr2, hr1]
      · rw [hc2, hc1]

/-- `Multiply` always returns the null pointer, never an exception: every
path ends in `return std::unique_ptr<RowMatrix<T>>(nullptr)`. -/
theorem Multiply_eq_ok_none (matrixA matrixB : Option (RowMatrix α)) :
    Multiply matrixA matrixB = .ok none := by
  match matrixA, matrixB with
  | none, none => rfl
  | none, some B => rfl
  | some A, none => rfl
  | some A, some B =>
      rw [Multiply]
      by_cases h : A.GetColumnCount = B.GetRowCount
      · rw [if_neg (by push_neg; exact h)]
        have hAB : A.cols = B.rows := h
        have hr0 : (mkRowMatrix A.rows B.cols : RowMatrix α).rows = A.rows := rfl
        have hc0 : (mkRowMatrix A.rows B.cols : RowMatrix α).cols = B.cols := rfl
        obtain ⟨resq, hq, _, _⟩ :=
          mulOuter_ok A B hAB (Nat.le_refl A.rows) hr0 hc0
        simp only [RowMatrix.GetRowCount, RowMatrix.GetColumnCount]
        rw [hq, ok_bind]
      · rw [if_pos h]

/-! ### Characterization of the `FillFrom` loops -/

theorem fillInner_getD (source : List α) {R cols i n p q : Nat}
    {buf : List α} (d : α)
    (hbuf : buf.length = R * cols) (hi : i < R) (hn : n ≤ cols)
    (_hp : p < R) (hq : q < cols) :
    (fillInner source cols i n buf).getD (p * cols + q) d =
      if p = i ∧ q < n then source.getD (i * cols + q) default
      else buf.getD (p * cols + q) d := by
  induction n with
  | zero => simp [fillInner]
  | succ j ih =>
      have hj : j < cols := hn
      have hlt : i * cols + j < (fillInner source cols i j buf).length := by
        rw [fillInner_length, hbuf]; exact index_lt hi hj
      rw [fillInner]
      by_cases hpq : p = i ∧ q = j
      · obtain ⟨hpi, hqj⟩ := hpq
        rw [hpi, hqj, getD_set_self _ _ _ _ hlt,
          if_pos ⟨rfl, Nat.lt_succ_self j⟩]
      · have hne : i * cols + j ≠ p * cols + q := by
          intro he
          rcases index_inj hj hq he with ⟨h1, h2⟩
          exact hpq ⟨h1.symm, h2.symm⟩
        rw [getD_set_ne _ _ _ _ _ hne, ih (Nat.le_of_succ_le hn)]
        by_cases hpij : p = i ∧ q < j + 1
        · have hqj : q < j := by
            rcases hpij with ⟨hpi, hqs⟩
            rcases Nat.lt_succ_iff_lt_or_eq.mp hqs with h' | h'
            · exact h'
            · exact absurd ⟨hpi, h'⟩ hpq
          rw [if_pos ⟨hpij.1, hqj⟩, if_pos hpij]
        · have hnot : ¬(p = i ∧ q < j) := by
            intro ⟨h1', h2'⟩; exact hpij ⟨h1', Nat.lt_succ_of_lt h2'⟩
          rw [if_neg hnot, if_neg hpij]

theorem fillOuter_getD (source : List α) {R cols n p q : Nat}
    {buf : List α} (d : α)
    (hbuf : buf.length = R * cols) (hn : n ≤ R)
    (hp : p < R) (hq : q < cols) :
    (fillOuter source cols n buf).getD (p * cols + q) d =
      if p < n then source.getD (p * cols + q) default
      else buf.getD (p * cols + q) d := by
  induction n with
  | zero => simp [fillOuter]
  | succ i ih =>
      have hi : i < R := hn
      have hbuf1 : (fillOuter source cols i buf).length = R * cols := by
        rw [fillOuter_length]; exact hbuf
      rw [fillOuter,
        fillInner_getD source d hbuf1 hi (Nat.le_refl cols) hp hq,
        ih (Nat.le_of_succ_le hn)]
      by_cases hpi : p = i
      · rw [if_pos ⟨hpi, hq⟩, if_pos (by omega), hpi]
      · rw [if_neg (fun h => hpi h.1)]
        by_cases hplt : p < i
        · rw [if_pos hplt, if_pos (Nat.lt_succ_of_lt hplt)]
        · rw [if_neg hplt,
            if_neg (fun h => hpi ((Nat.lt_succ_iff_lt_or_eq.mp h).resolve_left hplt))]

/-! ### Concrete matrices from the spec's GEMM scenario -/

def exA : RowMatrix Int := ⟨2, 2, [1, 2, 3, 4], rfl⟩

def exB : RowMatrix Int := ⟨2, 2, [5, 6, 7, 8], rfl⟩

def exC : RowMatrix Int := ⟨2, 2, [1, 1, 1, 1], rfl⟩

/-! ### The claims -/

/-- C1: the spec says `Multiply(A, B)` on non-null operands with
`A.cols == B.rows` returns a present product matrix; the code instead runs
the accumulation loop and then returns `unique_ptr(nullptr)`. At the spec's
own example `A = [[1,2],[3,4]]`, `B = [[5,6],[7,8]]` (shape precondition
satisfied), `Multiply` evaluates to the absent result, not to the product
`[[19,22],[43,50]]`. -/
theorem claimC1_multiply_returns_absent_on_valid_input :
    exA.cols = exB.rows ∧
    Multiply (some exA) (some exB) = .ok none ∧
    Multiply (some exA) (some exB) ≠
      .ok (some ⟨2, 2, [19, 22, 43, 50], rfl⟩) := by
  refine ⟨rfl, rfl, ?_⟩
  intro h
  rw [show Multiply (some exA) (some exB) = Except.ok none from rfl] at h
  simp at h

/-- C2: for every pair of inputs, `Multiply` returns the absent (null)
result: every path of the function ends in
`return std::unique_ptr<RowMatrix<T>>(nullptr)`, and the accumulation loop
never throws, so the computed product is never returned. -/
theorem claimC2_multiply_always_absent (matrixA matrixB : Option (RowMatrix α)) :
    Multiply matrixA matrixB = .ok none :=
  Multiply_eq_ok_none matrixA matrixB

/-- C3: the spec says `GEMM(A, B, C)` on shape-compatible operands returns
the present matrix `(A x B) + C`, in particular `[[20,23],[44,51]]` on the
example triple; since the `Multiply` sub-step always yields the absent
result, `GEMM` evaluates to absent there instead. -/
theorem claimC3_gemm_absent_on_example :
    (exA.cols = exB.rows ∧ exA.rows = exC.rows ∧ exB.cols = exC.cols) ∧
    GEMM (some exA) (some exB) (some exC) = .ok none ∧
    GEMM (some exA) (some exB) (some exC) ≠
      .ok (some ⟨2, 2, [20, 23, 44, 51], rfl⟩) := by
  refine ⟨⟨rfl, rfl, rfl⟩, rfl, ?_⟩
  intro h
  rw [show GEMM (some exA) (some exB) (some exC) = Except.ok none from rfl] at h
  simp at h

/-- C4: whenever the `Multiply` sub-step yields the absent result, `GEMM`
also returns the absent result, and `Add` applied to an absent first operand
returns absent via its null check without touching any element. -/
theorem claimC4_gemm_propagates_absent
    (matrixA matrixB matrixC : Option (RowMatrix α))
    (h : Multiply matrixA matrixB = .ok none) :
    GEMM matrixA matrixB matrixC = .ok none ∧
    Add none matrixC = .ok none := by
  constructor
  · rw [GEMM, h, ok_bind]
    cases matrixC <;> rfl
  · cases matrixC <;> rfl

/-- Witness for C4 at the spec's example matrices. -/
theorem claimC4_witness :
    Multiply (some exA) (some exB) = .ok none ∧
    GEMM (some exA) (some exB) (some exC) = .ok none ∧
    Add none (some exC) = .ok none :=
  ⟨rfl, (claimC4_gemm_propagates_absent (some exA) (some exB) (some exC) rfl).1,
    (claimC4_gemm_propagates_absent (some exA) (some exB) (some exC) rfl).2⟩

/-- C5: for every matrix and every in-range index pair, `SetElement(i,j,v)`
followed by `GetElement(i,j)` returns `v`. -/
theorem claimC5_set_get_roundtrip (m : RowMatrix α) (i j : Nat) (v : α)
    (mq : RowMatrix α) (hi : i < m.rows) (hj : j < m.cols)
    (hset : m.SetElement i j v = .ok mq) :
    mq.GetElement i j = .ok v := by
  rw [SetElement_ok m v hi hj] at hset
  have hmq : mq = m.setEntry i j v := by
    cases hset; rfl
  subst hmq
  have hi' : i < (m.setEntry i j v).rows := hi
  have hj' : j < (m.setEntry i j v).cols := hj
  rw [GetElement_ok _ hi' hj', entry_setEntry_self m v hi hj]

/-- Witness for C5: a 1x1 matrix, write 5 at (0,0), read it back. -/
theorem claimC5_witness :
    (0 < (⟨1, 1, [0], rfl⟩ : RowMatrix Int).rows) ∧
    (⟨1, 1, [(0:Int)], rfl⟩ : RowMatrix Int).SetElement 0 0 5 =
      .ok ⟨1, 1, [5], rfl⟩ ∧
    (⟨1, 1, [(5:Int)], rfl⟩ : RowMatrix Int).GetElement 0 0 = .ok 5 :=
  ⟨Nat.zero_lt_one, rfl,
    claimC5_set_get_roundtrip ⟨1, 1, [0], rfl⟩ 0 0 5 ⟨1, 1, [5], rfl⟩
      Nat.zero_lt_one Nat.zero_lt_one rfl⟩

/-- C6: for every out-of-range index pair, `GetElement` and `SetElement`
both raise the out-of-range error, and no successor state is produced (the
stored contents are unchanged, since the only way a call changes contents is
by returning a new matrix). -/
theorem claimC6_out_of_range_rejected (m : RowMatrix α) (i j : Int) (v : α)
    (hout : i < 0 ∨ (m.rows : Int) ≤ i ∨ j < 0 ∨ (m.cols : Int) ≤ j) :
    m.GetElement i j = .error ⟨.OUT_OF_RANGE, "GetElement out of range"⟩ ∧
    m.SetElement i j v = .error ⟨.OUT_OF_RANGE, "SetElement out of range"⟩ ∧
    ∀ mq : RowMatrix α, m.SetElement i j v ≠ .ok mq := by
  refine ⟨?_, ?_, ?_⟩
  · rw [RowMatrix.GetElement, if_pos hout]
  · rw [RowMatrix.SetElement, if_pos hout]
  · intro mq h
    rw [RowMatrix.SetElement, if_pos hout] at h
    exact Except.noConfusion h

/-- Witness for C6: index (-1, 0) on a 1x1 matrix. -/
theorem claimC6_witness :
    ((-1 : Int) < 0 ∨ ((1:Nat) : Int) ≤ -1 ∨ (0:Int) < 0 ∨ ((1:Nat) : Int) ≤ 0) ∧
    (⟨1, 1, [(3:Int)], rfl⟩ : RowMatrix Int).GetElement (-1) 0 =
      .error ⟨.OUT_OF_RANGE, "GetElement out of range"⟩ ∧
    (⟨1, 1, [(3:Int)], rfl⟩ : RowMatrix Int).SetElement (-1) 0 9 =
      .error ⟨.OUT_OF_RANGE, "SetElement out of range"⟩ :=
  ⟨Or.inl (by decide),
    (claimC6_out_of_range_rejected ⟨1, 1, [(3:Int)], rfl⟩ (-1) 0 9
      (Or.inl (by decide))).1,
    (claimC6_out_of_range_rejected ⟨1, 1, [(3:Int)], rfl⟩ (-1) 0 9
      (Or.inl (by decide))).2.1⟩

/-- C7: `FillFrom(seq)` with `seq.length = rows*cols` succeeds and afterwards
position (i, j) holds `seq[i*cols + j]` for every valid (i, j); with any
other length it raises the out-of-range error and produces no successor
state (the stored elements are unchanged). -/
theorem claimC7_fillfrom (m : RowMatrix α) (source : List α) :
    (source.length = m.rows * m.cols →
      ∃ mq : RowMatrix α, m.FillFrom source = .ok mq ∧
        mq.rows = m.rows ∧ mq.cols = m.cols ∧
        ∀ i j : Nat, i < m.rows → j < m.cols →
          mq.GetElement i j = .ok (source.getD (i * m.cols + j) default)) ∧
    (source.length ≠ m.rows * m.cols →
      m.FillFrom source = .error ⟨.OUT_OF_RANGE, "FillFrom out of range"⟩ ∧
      ∀ mq : RowMatrix α, m.FillFrom source ≠ .ok mq) := by
  constructor
  · intro hlen
    refine ⟨m.fillResult source, ?_, rfl, rfl, ?_⟩
    · rw [RowMatrix.FillFrom, if_neg (by omega)]
    · intro i j hi hj
      have hi' : i < (m.fillResult source).rows := hi
      have hj' : j < (m.fillResult source).cols := hj
      rw [GetElement_ok _ hi' hj']
      have he : (m.fillResult source).entry i j =
          source.getD (i * m.cols + j) default := by
        show (fillOuter source m.cols m.rows m.data).getD
          (i * m.cols + j) default = _
        rw [fillOuter_getD source default m.hlen (Nat.le_refl m.rows) hi hj,
          if_pos hi]
      rw [he]
  · intro hlen
    refine ⟨?_, ?_⟩
    · rw [RowMatrix.FillFrom, if_pos hlen]
    · intro mq h
      rw [RowMatrix.FillFrom, if_pos hlen] at h
      exact Except.noConfusion h

/-- Witness for C7: filling a 2x2 matrix from `[9,8,7,6]` and reading back
(1, 0); and a wrong-length fill raising the error. -/
theorem claimC7_witness :
    ([9, 8, 7, 6].length = exA.rows * exA.cols) ∧
    (∃ mq : RowMatrix Int, exA.FillFrom [9, 8, 7, 6] = .ok mq ∧
      mq.rows = exA.rows ∧ mq.cols = exA.cols ∧
      ∀ i j : Nat, i < exA.rows → j < exA.cols →
        mq.GetElement i j = .ok ([9, 8, 7, 6].getD (i * exA.cols + j) default)) ∧
    exA.FillFrom [1, 2, 3] = .error ⟨.OUT_OF_RANGE, "FillFrom out of range"⟩ :=
  ⟨rfl, (claimC7_fillfrom exA [9, 8, 7, 6]).1 rfl,
    ((claimC7_fillfrom exA [1, 2, 3]).2 (by decide)).1⟩

/-- C8: `Add` on non-null equal-shaped operands returns a present matrix of
the same shape holding the elementwise sums, and (for commutative `+`)
`Add(A,B)` and `Add(B,A)` agree elementwise; on a shape mismatch or an
absent operand, `Add` returns the absent result. -/
theorem claimC8_add (hcomm : ∀ a b : α, a + b = b + a)
    (A B : RowMatrix α) (matrixA matrixB : Option (RowMatrix α)) :
    (A.rows = B.rows → A.cols = B.cols →
      ∃ R S : RowMatrix α,
        Add (some A) (some B) = .ok (some R) ∧
        Add (some B) (some A) = .ok (some S) ∧
        R.rows = A.rows ∧ R.cols = A.cols ∧
        ∀ p q : Nat, p < A.rows → q < A.cols →
          R.entry p q = A.entry p q + B.entry p q ∧
          S.entry p q = R.entry p q) ∧
    (A.rows ≠ B.rows ∨ A.cols ≠ B.cols → Add (some A) (some B) = .ok none) ∧
    Add none matrixB = .ok none ∧ Add matrixA none = .ok none := by
  refine ⟨?_, ?_, ?_, ?_⟩
  · intro hr hc
    obtain ⟨R, hR, hRr, hRc, hRe⟩ := Add_some_eq A B hr hc
    obtain ⟨S, hS, hSr, hSc, hSe⟩ := Add_some_eq B A hr.symm hc.symm
    refine ⟨R, S, hR, hS, hRr, hRc, ?_⟩
    intro p q hp hq
    have hpB : p < B.rows := by rw [← hr]; exact hp
    have hqB : q < B.cols := by rw [← hc]; exact hq
    refine ⟨hRe p q hp hq, ?_⟩
    rw [hSe p q hpB hqB, hRe p q hp hq, hcomm]
  · intro h
    rw [Add]
    simp only [RowMatrix.GetRowCount, RowMatrix.GetColumnCount]
    rw [if_pos h]
  · cases matrixB <;> rfl
  · cases matrixA <;> rfl

/-- Witness for C8 at the spec's example matrices (over `Int`). -/
theorem claimC8_witness :
    (∃ R S : RowMatrix Int,
      Add (some exA) (some exB) = .ok (some R) ∧
      Add (some exB) (some exA) = .ok (some S) ∧
      R.rows = exA.rows ∧ R.cols = exA.cols ∧
      ∀ p q : Nat, p < exA.rows → q < exA.cols →
        R.entry p q = exA.entry p q + exB.entry p q ∧
        S.entry p q = R.entry p q) ∧
    Add (some exA) none = .ok none :=
  ⟨(claimC8_add Int.add_comm exA exB (some exA) (some exB)).1 rfl rfl,
    (claimC8_add Int.add_comm exA exB (some exA) (some exB)).2.2.2⟩

/-- C9: once the null and shape checks of `Add`/`Multiply` pass, every
internal `GetElement`/`SetElement` call is in range, so neither operation
ever raises the out-of-range error: on every input each returns an `ok`
result (possibly the null matrix), never an exception. -/
theorem claimC9_no_internal_out_of_range
    (matrixA matrixB : Option (RowMatrix α)) :
    (∃ r : Option (RowMatrix α), Add matrixA matrixB = .ok r) ∧
    (∃ r : Option (RowMatrix α), Multiply matrixA matrixB = .ok r) := by
  constructor
  · match matrixA, matrixB with
    | none, none => exact ⟨none, rfl⟩
    | none, some B => exact ⟨none, rfl⟩
    | some A, none => exact ⟨none, rfl⟩
    | some A, some B =>
        by_cases h : A.rows = B.rows ∧ A.cols = B.cols
        · obtain ⟨R, hR, _, _, _⟩ := Add_some_eq A B h.1 h.2
          exact ⟨some R, hR⟩
        · refine ⟨none, ?_⟩
          rw [Add, if_pos (by tauto)]
  · exact ⟨none, Multiply_eq_ok_none matrixA matrixB⟩

/-- C10: an in-range `SetElement(i,j,v)` changes only position (i, j): the
shape is unchanged and every other in-range position reads the same value
afterwards. -/
theorem claimC10_setelement_frame (m : RowMatrix α) (i j : Nat) (v : α)
    (mq : RowMatrix α) (hi : i < m.rows) (hj : j < m.cols)
    (hset : m.SetElement i j v = .ok mq) :
    mq.rows = m.rows ∧ mq.cols = m.cols ∧
    ∀ p q : Nat, p < m.rows → q < m.cols → ¬(p = i ∧ q = j) →
      mq.GetElement p q = m.GetElement p q := by
  rw [SetElement_ok m v hi hj] at hset
  have hmq : mq = m.setEntry i j v := by
    cases hset; rfl
  subst hmq
  refine ⟨rfl, rfl, ?_⟩
  intro p q hp hq hne
  have hp' : p < (m.setEntry i j v).rows := hp
  have hq' : q < (m.setEntry i j v).cols := hq
  rw [GetElement_ok _ hp' hq', GetElement_ok m hp hq,
    entry_setEntry_ne m v hj hq hne]

/-- Witness for C10: setting (0,1) of a 1x2 matrix leaves (0,0) unchanged. -/
theorem claimC10_witness :
    (0 < (⟨1, 2, [10, 20], rfl⟩ : RowMatrix Int).rows) ∧
    (⟨1, 2, [(10:Int), 20], rfl⟩ : RowMatrix Int).SetElement 0 1 99 =
      .ok ⟨1, 2, [10, 99], rfl⟩ ∧
    (⟨1, 2, [(10:Int), 99], rfl⟩ : RowMatrix Int).GetElement 0 0 =
      (⟨1, 2, [(10:Int), 20], rfl⟩ : RowMatrix Int).GetElement 0 0 :=
  ⟨Nat.zero_lt_one, rfl,
    (claimC10_setelement_frame ⟨1, 2, [10, 20], rfl⟩ 0 1 99 ⟨1, 2, [10, 99], rfl⟩
      Nat.zero_lt_one (by decide) rfl).2.2 0 0 Nat.zero_lt_one (by decide)
      (by simp)⟩

end Bustub
